import Mathlib

/-!
Shallow embedding of the `WebsocketJsonRpc` client from
`src/websocket-rpc.ts` (the version of the class that carries the
subscription registry, i.e. the fields `tableSubs` / `traceSubs` and the
methods `subscribeTable`, `subscribeTrace`, `dispatchSubscription`,
`resubscribeAll`).

Modelling conventions:
* The mutable instance fields of the class become the fields of the
  `Client` structure.  The `pending` map stores its keys only: the
  resolve / reject continuations and the timer handle of an entry are
  identified by the request id, and firing a continuation is recorded as
  an `Effect` naming that id.
* Every method becomes a pure function `Client → ... → Client × List Effect`;
  the `Effect` list records, in program order, the externally observable
  actions the method performs (`ws.send`, resolving or rejecting a
  promise, `clearTimeout`, `setInterval` / `clearInterval` on the
  heartbeat, `setTimeout(connect, ...)` in `attemptReconnect`, invoking a
  subscription callback, and the `this.connect()` calls issued from
  `call` / `subscribeTable` / `subscribeTrace`).
* Subscription callbacks are identified by natural numbers (JS compares
  them by reference in `indexOf`); a parameter `throws : Nat → Bool`
  says which callbacks raise when invoked, which models `forEach`
  aborting on an exception.
* `while` loops over `this.queue` and the iteration of the event handlers
  become structural recursion; the repeated reads of `this.isConnected`
  inside the `processQueue` loop are modelled by an oracle
  `conn : Nat → Bool` giving the value of the flag observed at each loop
  guard (the in-model callers instantiate it with the constant flag,
  since no step of the loop itself writes the flag).
* Fresh uuids are passed in as parameters; theorems that need freshness
  state it as a hypothesis.
-/

namespace WaxWsRpc

/-- The recognized client options (`WaxRpcOptions`, all fields required
after the constructor applies its defaults). -/
structure Options where
  autoConnect : Bool
  autoReconnect : Bool
  reconnectInterval : Nat
  maxRetries : Nat
  requestTimeOut : Nat
  deriving DecidableEq, Repr

/-- Default options, as filled in by the constructor
(`?? true / true / 3000 / 10 / 5000`). -/
def Options.defaults : Options :=
  { autoConnect := true, autoReconnect := true, reconnectInterval := 3000,
    maxRetries := 10, requestTimeOut := 5000 }

/-- Shallow JSON value for the `params` field of an outbound frame. -/
inductive Params where
  /-- A literal string (the code initializes `params: ""`). -/
  | str (s : String)
  /-- An opaque non-empty params object of a generic call. -/
  | obj (o : String)
  /-- `{ code, table, scope }` of a table subscribe / unsubscribe frame;
  `none` models JSON `null` (used by `resubscribeAll` for wildcard). -/
  | table (code table : String) (scope : Option String)
  /-- `{ code, action }` of a trace subscribe / unsubscribe frame. -/
  | trace (code action : String)
  deriving DecidableEq, Repr

/-- An outbound request envelope `{request_id, type, params}`. -/
structure OutFrame where
  request_id : String
  type : String
  params : Params
  deriving DecidableEq, Repr

/-- A parsed inbound message, with the fields `handleMessage` and
`dispatchSubscription` read.  A missing `request_id` is modelled by `""`
(both are falsy in the `msg.request_id && ...` guard); `account` and
`name` stand for `msg.trace.account` and `msg.trace.name`. -/
structure InMsg where
  type : String := ""
  request_id : String := ""
  message : String := ""
  result : String := ""
  code : String := ""
  scope : String := ""
  table : String := ""
  account : String := ""
  name : String := ""
  deriving DecidableEq, Repr

/-- Externally observable actions of a method, in program order. -/
inductive Effect where
  /-- `this.ws.send(JSON.stringify(payload))`. -/
  | send (f : OutFrame)
  /-- Resolving the promise of the call with the given request id. -/
  | resolve (rid : String) (result : String)
  /-- Rejecting the promise of the call with the given request id. -/
  | reject (rid : String) (err : String)
  /-- `clearTimeout(request.timeout)` for the pending entry `rid`. -/
  | clearTimer (rid : String)
  /-- `startHeartbeat()` installing the heartbeat interval. -/
  | startHeartbeat
  /-- `stopHeartbeat()` clearing the heartbeat interval. -/
  | stopHeartbeat
  /-- `setTimeout(() => this.connect(), interval)` in `attemptReconnect`. -/
  | scheduleReconnect (interval : Nat)
  /-- A synchronous `this.connect()` call issued from `call`,
  `subscribeTable` or `subscribeTrace` while disconnected. -/
  | startConnect
  /-- `this.retryCount = 0` inside the `onopen` handler. -/
  | resetRetry
  /-- Invoking a registered subscription callback. -/
  | invoke (cb : Nat)
  deriving DecidableEq, Repr

/-- The mutable state of one `WebsocketJsonRpc` instance. -/
structure Client where
  isConnected : Bool
  isConnecting : Bool
  /-- Keys of `this.pending` (a JS `Map`, so keys are unique and kept in
  insertion order). -/
  pending : List String
  /-- `this.queue`, FIFO array of queued payloads. -/
  queue : List OutFrame
  retryCount : Nat
  options : Options
  /-- `this.id`, the uuid generated once at construction. -/
  id : String
  /-- `this.tableSubs` as an insertion-ordered association list. -/
  tableSubs : List (String × List Nat)
  /-- `this.traceSubs` as an insertion-ordered association list. -/
  traceSubs : List (String × List Nat)
  deriving DecidableEq, Repr

/-! ### Association-list helpers (JS `Map` / `Array` snippets) -/

/-- `map.get(k)` on an insertion-ordered association list. -/
def lookupKey (l : List (String × List Nat)) (k : String) : Option (List Nat) :=
  (l.find? (fun e => e.1 = k)).map (fun e => e.2)

/-- `map.get(k)` defaulted to the empty collection. -/
def lookupD (l : List (String × List Nat)) (k : String) : List Nat :=
  (lookupKey l k).getD []

/-- `map.get(k)?.push(cb)`: append `cb` to the value stored at `k` (a JS
`Map` holds at most one entry per key). -/
def pushCb : List (String × List Nat) → String → Nat →
    List (String × List Nat)
  | [], _, _ => []
  | e :: l, k, cb =>
    if e.1 = k then (e.1, e.2 ++ [cb]) :: pushCb l k cb
    else e :: pushCb l k cb

/-- Overwrite the value stored at `k` (in-place array mutation through the
map reference). -/
def setCbs : List (String × List Nat) → String → List Nat →
    List (String × List Nat)
  | [], _, _ => []
  | e :: l, k, v =>
    if e.1 = k then (e.1, v) :: setCbs l k v else e :: setCbs l k v

/-- `map.delete(k)`. -/
def delKey : List (String × List Nat) → String → List (String × List Nat)
  | [], _ => []
  | e :: l, k => if e.1 = k then delKey l k else e :: delKey l k

/-- `const index = callbacks.indexOf(cb); if (index !== -1) splice(index, 1)`:
remove the first occurrence of `cb`, if any. -/
def removeFirstCb : List Nat → Nat → List Nat
  | [], _ => []
  | x :: xs, cb => if x = cb then xs else x :: removeFirstCb xs cb

/-- `this.pending.set(rid, entry)`: on the key set of a JS `Map`, a set
with an existing key keeps the old position, a new key is appended. -/
def pendingInsert (l : List String) (rid : String) : List String :=
  if rid ∈ l then l else l ++ [rid]

/-- Character-level worker for `splitChar` (JS `String.prototype.split`
with a one-character separator). -/
def splitCharAux (c : Char) : List Char → List Char → List (List Char)
  | [], acc => [acc.reverse]
  | x :: xs, acc =>
    if x = c then acc.reverse :: splitCharAux c xs []
    else splitCharAux c xs (x :: acc)

/-- JS `s.split(c)` for a one-character separator `c`. -/
def splitChar (c : Char) (s : String) : List String :=
  (splitCharAux c s.data []).map String.mk

/-- Character-level worker for `splitDColon` (JS `s.split('::')`). -/
def splitDColonAux : List Char → List Char → List (List Char)
  | [], acc => [acc.reverse]
  | [x], acc => [(x :: acc).reverse]
  | x :: y :: xs, acc =>
    if x = ':' ∧ y = ':' then acc.reverse :: splitDColonAux xs []
    else splitDColonAux (y :: xs) (x :: acc)

/-- JS `s.split('::')`, the separator used by `subscribeTrace`. -/
def splitDColon (s : String) : List String :=
  (splitDColonAux s.data []).map String.mk

/-- Character-level worker for `replaceFirst`. -/
def replacePatAux (pat rep : List Char) : List Char → List Char → List Char
  | [], acc => acc.reverse
  | x :: xs, acc =>
    if pat.isPrefixOf (x :: xs) then
      acc.reverse ++ rep ++ (x :: xs).drop pat.length
    else replacePatAux pat rep xs (x :: acc)

/-- `String.prototype.replace` with a plain-string pattern replaces the
first occurrence only. -/
def replaceFirst (s pat rep : String) : String :=
  String.mk (replacePatAux pat.data rep.data s.data [])

/-! ### The client methods -/

/-- `sendToWs(payload, resolve, reject)`: starts the timeout timer,
stores the pending entry, and sends the payload. -/
def sendToWs (st : Client) (payload : OutFrame) : Client × List Effect :=
  ({ st with pending := pendingInsert st.pending payload.request_id },
   [Effect.send payload])

/-- The timeout callback installed by `sendToWs` for request id `rid`:
`if (this.pending.has(rid)) { delete; reject(new Error("Request Timeout")) }`. -/
def onRequestTimeout (st : Client) (rid : String) : Client × List Effect :=
  if rid ∈ st.pending then
    ({ st with pending := st.pending.filter (fun r => r ≠ rid) },
     [Effect.reject rid "Request Timeout"])
  else (st, [])

/-- `callbacks.forEach(cb => cb(evt))`: callbacks run in order until the
first one that throws; the exception propagates (and is swallowed by the
`try/catch` in `handleMessage`), so the rest of the array never runs. -/
def runCallbacks (throws : Nat → Bool) : List Nat → List Nat
  | [] => []
  | cb :: rest => if throws cb then [cb] else cb :: runCallbacks throws rest

/-- The exact-topic routing key `table:${code}:${table}:${scope}` built by
`dispatchSubscription` for a table-delta event. -/
def deltaSpecificKey (m : InMsg) : String :=
  "table:" ++ m.code ++ ":" ++ m.table ++ ":" ++ m.scope

/-- The wildcard routing key `table:${code}:${table}:*`. -/
def deltaWildcardKey (m : InMsg) : String :=
  "table:" ++ m.code ++ ":" ++ m.table ++ ":*"

/-- The trace routing key `trace:${trace.account}:${trace.name}`. -/
def traceKeyOf (m : InMsg) : String :=
  "trace:" ++ m.account ++ ":" ++ m.name

/-- The combined callback array `[...specific, ...wildcard]` that
`dispatchSubscription` builds for a table-delta event. -/
def matchedTableCallbacks (st : Client) (m : InMsg) : List Nat :=
  lookupD st.tableSubs (deltaSpecificKey m) ++ lookupD st.tableSubs (deltaWildcardKey m)

/-- `dispatchSubscription(msg)`.  It only reads the registries, so it
returns effects only. -/
def dispatchSubscription (throws : Nat → Bool) (st : Client) (m : InMsg) :
    List Effect :=
  if m.type = "table_delta" then
    (runCallbacks throws (matchedTableCallbacks st m)).map Effect.invoke
  else if m.type = "action_trace" then
    match lookupKey st.traceSubs (traceKeyOf m) with
    | some cbs => (runCallbacks throws cbs).map Effect.invoke
    | none => []
  else []

/-- `handleMessage(event)` after a successful `JSON.parse` (a frame that
fails the `{`/`[` guard or does not parse is dropped by the `try/catch`
with no state change, i.e. behaves like the final `else`). -/
def handleMessage (throws : Nat → Bool) (st : Client) (m : InMsg) :
    Client × List Effect :=
  if m.type = "pong" then (st, [])
  else if m.type = "table_delta" then (st, dispatchSubscription throws st m)
  else if m.type = "action_trace" then (st, dispatchSubscription throws st m)
  else if m.request_id ≠ "" ∧ m.request_id ∈ st.pending then
    ({ st with pending := st.pending.filter (fun r => r ≠ m.request_id) },
     Effect.clearTimer m.request_id ::
       (if m.type = "error" then [Effect.reject m.request_id m.message]
        else [Effect.resolve m.request_id m.result]))
  else (st, [])

/-- `processQueue()`: `while (this.queue.length > 0 && this.isConnected)
{ shift; sendToWs }`.  `conn k` is the value of `this.isConnected`
observed at the `k`-th evaluation of the loop guard. -/
def processQueueGo : (Nat → Bool) → List String → List OutFrame →
    List String × List OutFrame × List Effect
  | _, pend, [] => (pend, [], [])
  | conn, pend, item :: rest =>
    if conn 0 then
      let r := processQueueGo (fun i => conn (i + 1))
        (pendingInsert pend item.request_id) rest
      (r.1, r.2.1, Effect.send item :: r.2.2)
    else (pend, item :: rest, [])

/-- Number of queue entries the drain loop processes before it stops. -/
def drainCount : (Nat → Bool) → List OutFrame → Nat
  | _, [] => 0
  | conn, _ :: rest =>
    if conn 0 then drainCount (fun i => conn (i + 1)) rest + 1 else 0

/-- The payload `{request_id, type: method.replace("/v1/chain/", ""),
params}` built by `call`; `params = none` models an empty params object
(the payload then keeps its `params: ""` placeholder). -/
def callPayload (request_id methodRaw : String) (params : Option String) :
    OutFrame :=
  { request_id := request_id,
    type := replaceFirst methodRaw "/v1/chain/" "",
    params := match params with
      | some s => Params.obj s
      | none => Params.str "" }

/-- `call(method, params)` with the freshly generated uuid passed in. -/
def call (st : Client) (request_id methodRaw : String)
    (params : Option String) : Client × List Effect :=
  let payload := callPayload request_id methodRaw params
  if st.isConnected then sendToWs st payload
  else
    let st1 := { st with queue := st.queue ++ [payload] }
    if ¬ st.isConnecting then (st1, [Effect.startConnect]) else (st1, [])

/-- The topic key computed by `subscribeTable`:
`scopeKey = scope || "*"; key = table:${code}:${table}:${scopeKey}`. -/
def tableKey (code scope table : String) : String :=
  "table:" ++ code ++ ":" ++ table ++ ":" ++ (if scope = "" then "*" else scope)

/-- The subscribe control frame sent by `subscribeTable` for a new topic. -/
def subTablePayload (id code scope table : String) : OutFrame :=
  { request_id := id, type := "subscribe_table",
    params := Params.table code table (some scope) }

/-- The unsubscribe control frame sent by the disposer of `subscribeTable`. -/
def unsubTablePayload (id code scope table : String) : OutFrame :=
  { request_id := id, type := "unsubscribe_table",
    params := Params.table code table (some scope) }

/-- `subscribeTable(code, scope, table, callback)` (registration part). -/
def subscribeTable (st : Client) (code scope table : String) (cb : Nat) :
    Client × List Effect :=
  let key := tableKey code scope table
  if (lookupKey st.tableSubs key).isSome then
    ({ st with tableSubs := pushCb st.tableSubs key cb }, [])
  else
    let sendEff := if st.isConnected
      then [Effect.send (subTablePayload st.id code scope table)] else []
    let connEff := if ¬ st.isConnected ∧ ¬ st.isConnecting
      then [Effect.startConnect] else []
    ({ st with tableSubs := st.tableSubs ++ [(key, [cb])] },
     sendEff ++ connEff)

/-- The disposer returned by `subscribeTable` (it closes over `key`,
`code`, `table`, `scope` and the callback reference). -/
def unsubscribeTable (st : Client) (code scope table : String) (cb : Nat) :
    Client × List Effect :=
  let key := tableKey code scope table
  match lookupKey st.tableSubs key with
  | none => (st, [])
  | some cbs =>
    let cbs1 := removeFirstCb cbs cb
    if cbs1 = [] then
      ({ st with tableSubs := delKey st.tableSubs key },
       if st.isConnected
         then [Effect.send (unsubTablePayload st.id code scope table)]
         else [])
    else
      ({ st with tableSubs := setCbs st.tableSubs key cbs1 }, [])

/-- The subscribe control frame sent by `subscribeTrace` for a new topic. -/
def subTracePayload (id code action : String) : OutFrame :=
  { request_id := id, type := "subscribe_trace",
    params := Params.trace code action }

/-- The unsubscribe control frame sent by the disposer of `subscribeTrace`. -/
def unsubTracePayload (id code action : String) : OutFrame :=
  { request_id := id, type := "unsubscribe_trace",
    params := Params.trace code action }

/-- `subscribeTrace(codeAction, callback)` (registration part).
`codeAction.split('::')` destructured to `[code, action]`; a missing or
empty piece is falsy and the method throws synchronously. -/
def subscribeTrace (st : Client) (codeAction : String) (cb : Nat) :
    Except String (Client × List Effect) :=
  let parts := splitDColon codeAction
  let code := parts.getD 0 ""
  let action := parts.getD 1 ""
  if code = "" ∨ action = "" then
    Except.error "Invalid format. Use 'contract::action'"
  else
    let key := "trace:" ++ code ++ ":" ++ action
    if (lookupKey st.traceSubs key).isSome then
      Except.ok ({ st with traceSubs := pushCb st.traceSubs key cb }, [])
    else
      let sendEff := if st.isConnected
        then [Effect.send (subTracePayload st.id code action)] else []
      let connEff := if ¬ st.isConnected ∧ ¬ st.isConnecting
        then [Effect.startConnect] else []
      Except.ok ({ st with traceSubs := st.traceSubs ++ [(key, [cb])] },
        sendEff ++ connEff)

/-- The disposer returned by `subscribeTrace` (closes over the parsed
`code` / `action`, the key and the callback reference). -/
def unsubscribeTrace (st : Client) (code action : String) (cb : Nat) :
    Client × List Effect :=
  let key := "trace:" ++ code ++ ":" ++ action
  match lookupKey st.traceSubs key with
  | none => (st, [])
  | some cbs =>
    let cbs1 := removeFirstCb cbs cb
    if cbs1 = [] then
      ({ st with traceSubs := delKey st.traceSubs key },
       if st.isConnected
         then [Effect.send (unsubTracePayload st.id code action)]
         else [])
    else
      ({ st with traceSubs := setCbs st.traceSubs key cbs1 }, [])

/-- `resubscribeAll()`: one subscribe frame per registered topic, table
topics first, each rebuilt from the topic key split on `:`. -/
def resubscribeAll (st : Client) : List Effect :=
  st.tableSubs.map (fun e =>
    let parts := splitChar ':' e.1
    let code := parts.getD 1 ""
    let table := parts.getD 2 ""
    let scope := parts.getD 3 ""
    Effect.send
      { request_id := st.id, type := "subscribe_table",
        params := Params.table code table
          (if scope = "*" then none else some scope) })
  ++ st.traceSubs.map (fun e =>
    let parts := splitChar ':' e.1
    Effect.send
      { request_id := st.id, type := "subscribe_trace",
        params := Params.trace (parts.getD 1 "") (parts.getD 2 "") })

/-- The state written at the top of the `onopen` handler
(`isConnected = true; isConnecting = false; retryCount = 0`). -/
def connectedView (st : Client) : Client :=
  { st with isConnected := true, isConnecting := false, retryCount := 0 }

/-- The `onopen` handler: reset the retry counter, `resubscribeAll()`,
`processQueue()`, `startHeartbeat()`, in that order.  The drain loop reads
`this.isConnected`, which was just set to `true` and is written by no step
of the loop, so its oracle is the constant `true`. -/
def onOpen (st : Client) : Client × List Effect :=
  let st1 := connectedView st
  let re := resubscribeAll st1
  let r := processQueueGo (fun _ => true) st1.pending st1.queue
  ({ st1 with pending := r.1, queue := r.2.1 },
   Effect.resetRetry :: (re ++ r.2.2 ++ [Effect.startHeartbeat]))

/-- `attemptReconnect()`. -/
def attemptReconnect (st : Client) : Client × List Effect :=
  if st.retryCount < st.options.maxRetries then
    ({ st with retryCount := st.retryCount + 1 },
     [Effect.scheduleReconnect st.options.reconnectInterval])
  else (st, [])

/-- The `onclose` handler: clear the flags, `stopHeartbeat()`, and
`attemptReconnect()` whenever `autoReconnect` is enabled. -/
def onClose (st : Client) : Client × List Effect :=
  let st1 := { st with isConnected := false, isConnecting := false }
  if st1.options.autoReconnect then
    let r := attemptReconnect st1
    (r.1, Effect.stopHeartbeat :: r.2)
  else (st1, [Effect.stopHeartbeat])

/-! ### Event traces -/

/-- An event delivered to the client after some calls were dispatched:
either a `setTimeout` callback of `sendToWs` firing, or an inbound frame. -/
inductive Ev where
  | timeoutFire (rid : String)
  | inbound (m : InMsg)
  deriving DecidableEq, Repr

/-- Process one event. -/
def stepEv (throws : Nat → Bool) (st : Client) : Ev → Client × List Effect
  | Ev.timeoutFire rid => onRequestTimeout st rid
  | Ev.inbound m => handleMessage throws st m

/-- Process a list of events in order, accumulating effects. -/
def runEvents (throws : Nat → Bool) (st : Client) :
    List Ev → Client × List Effect
  | [] => (st, [])
  | e :: es =>
    let r1 := stepEv throws st e
    let r2 := runEvents throws r1.1 es
    (r2.1, r1.2 ++ r2.2)

/-- Whether an effect settles the promise of the call `rid` (a resolve,
a remote-error reject, or the timeout reject). -/
def isOutcome (rid : String) : Effect → Bool
  | Effect.resolve r _ => r = rid
  | Effect.reject r _ => r = rid
  | _ => false

/-- Number of effects in the list that settle the promise of `rid`. -/
def outcomeCount (rid : String) (effs : List Effect) : Nat :=
  (effs.filter (isOutcome rid)).length

/-- `true` on the reconnect-scheduling effect. -/
def isScheduleEff : Effect → Bool
  | Effect.scheduleReconnect _ => true
  | _ => false

/-- The `Effect.send` frames of an effect list, in order. -/
def sentFrames (effs : List Effect) : List OutFrame :=
  effs.filterMap (fun e => match e with
    | Effect.send f => some f
    | _ => none)

/-- Number of sent frames of the given envelope type. -/
def countSends (ty : String) (effs : List Effect) : Nat :=
  ((sentFrames effs).filter (fun f => f.type = ty)).length

/-- A callback set on which no callback throws. -/
def noThrow : Nat → Bool := fun _ => false

/-- Simulation of a server that never accepts: every connection attempt
ends in the `onclose` handler, and every scheduled reconnect is another
failing attempt.  Returns the final state and the number of reconnect
attempts that were scheduled. -/
def failLoop : Nat → Client → Client × Nat
  | 0, st => (st, 0)
  | fuel + 1, st =>
    let r := onClose st
    if r.2.any isScheduleEff then
      let r2 := failLoop fuel r.1
      (r2.1, r2.2 + 1)
    else (r.1, 0)

/-! ### Helper lemmas -/

theorem outcomeCount_append (rid : String) (a b : List Effect) :
    outcomeCount rid (a ++ b) = outcomeCount rid a + outcomeCount rid b := by
  simp [outcomeCount, List.filter_append]

theorem outcomeCount_invoke_map (rid : String) (l : List Nat) :
    outcomeCount rid (l.map Effect.invoke) = 0 := by
  induction l with
  | nil => rfl
  | cons x xs ih =>
    have : isOutcome rid (Effect.invoke x) = false := rfl
    simp only [List.map_cons, outcomeCount, List.filter_cons, this,
      Bool.false_eq_true, if_false]
    exact ih

theorem mem_filter_ne {l : List String} {a rid : String} :
    a ∈ l.filter (fun r => r ≠ rid) ↔ a ∈ l ∧ a ≠ rid := by
  simp [List.mem_filter]

/-- Processing one event with `rid` not pending: no outcome for `rid` is
emitted and `rid` stays out of the pending table. -/
theorem stepEv_of_not_pending (throws : Nat → Bool) (st : Client) (e : Ev)
    (rid : String) (h : rid ∉ st.pending) :
    outcomeCount rid (stepEv throws st e).2 = 0 ∧
      rid ∉ (stepEv throws st e).1.pending := by
  cases e with
  | timeoutFire r =>
    simp only [stepEv, onRequestTimeout]
    by_cases hr : r ∈ st.pending
    · have hne : ¬ (r = rid) := fun hh => h (hh ▸ hr)
      simp [hr, outcomeCount, isOutcome, hne, mem_filter_ne, h]
    · simp [hr, outcomeCount, h]
  | inbound m =>
    simp only [stepEv, handleMessage]
    by_cases h1 : m.type = "pong"
    · simp [h1, outcomeCount, h]
    by_cases h2 : m.type = "table_delta"
    · simp [h1, h2, dispatchSubscription, outcomeCount_invoke_map, h]
    by_cases h3 : m.type = "action_trace"
    · simp only [h1, h2, h3, if_true, if_false]
      refine ⟨?_, h⟩
      simp only [dispatchSubscription, h2, h3, if_false, if_true]
      cases lookupKey st.traceSubs (traceKeyOf m) with
      | none => rfl
      | some cbs => exact outcomeCount_invoke_map rid _
    by_cases h4 : m.request_id ≠ "" ∧ m.request_id ∈ st.pending
    · have hne : ¬ (m.request_id = rid) := fun hh => h (hh ▸ h4.2)
      by_cases h5 : m.type = "error" <;>
        simp [h1, h2, h3, h4, h5, outcomeCount, isOutcome, hne,
          mem_filter_ne, h]
    · simp [h1, h2, h3, h4, outcomeCount, h]

/-- Processing one event with `rid` pending: either exactly one outcome is
emitted and `rid` leaves the pending table, or no outcome is emitted and
`rid` stays pending. -/
theorem stepEv_of_pending (throws : Nat → Bool) (st : Client) (e : Ev)
    (rid : String) (h : rid ∈ st.pending) :
    (outcomeCount rid (stepEv throws st e).2 = 1 ∧
        rid ∉ (stepEv throws st e).1.pending) ∨
      (outcomeCount rid (stepEv throws st e).2 = 0 ∧
        rid ∈ (stepEv throws st e).1.pending) := by
  cases e with
  | timeoutFire r =>
    simp only [stepEv, onRequestTimeout]
    by_cases hr : r ∈ st.pending
    · by_cases hrr : r = rid
      · left; subst hrr
        simp [hr, outcomeCount, isOutcome, mem_filter_ne]
      · right
        have hne : ¬ (r = rid) := hrr
        have hne2 : ¬ (rid = r) := fun hh => hrr hh.symm
        simp [hr, outcomeCount, isOutcome, hne, hne2, mem_filter_ne, h]
    · right; simp [hr, outcomeCount, h]
  | inbound m =>
    simp only [stepEv, handleMessage]
    by_cases h1 : m.type = "pong"
    · right; simp [h1, outcomeCount, h]
    by_cases h2 : m.type = "table_delta"
    · right; simp [h1, h2, dispatchSubscription, outcomeCount_invoke_map, h]
    by_cases h3 : m.type = "action_trace"
    · right
      simp only [h1, h2, h3, if_true, if_false]
      refine ⟨?_, h⟩
      simp only [dispatchSubscription, h2, h3, if_false, if_true]
      cases lookupKey st.traceSubs (traceKeyOf m) with
      | none => rfl
      | some cbs => exact outcomeCount_invoke_map rid _
    by_cases h4 : m.request_id ≠ "" ∧ m.request_id ∈ st.pending
    · obtain ⟨h4a, h4b⟩ := h4
      by_cases hrr : m.request_id = rid
      · left
        rw [hrr] at h4a h4b
        by_cases h5 : m.type = "error" <;>
          simp [h1, h2, h3, h4a, h4b, h5, hrr, outcomeCount, isOutcome,
            mem_filter_ne]
      · right
        have hne2 : ¬ (rid = m.request_id) := fun hh => hrr hh.symm
        by_cases h5 : m.type = "error" <;>
          simp [h1, h2, h3, h4a, h4b, h5, hrr, outcomeCount, isOutcome,
            mem_filter_ne, h, hne2]
    · right; simp [h1, h2, h3, h4, outcomeCount, h]

/-- The timeout callback for a still-pending `rid` settles it. -/
theorem stepEv_timeout_of_pending (throws : Nat → Bool) (st : Client)
    (rid : String) (h : rid ∈ st.pending) :
    outcomeCount rid (stepEv throws st (Ev.timeoutFire rid)).2 = 1 ∧
      rid ∉ (stepEv throws st (Ev.timeoutFire rid)).1.pending := by
  simp [stepEv, onRequestTimeout, h, outcomeCount, isOutcome, mem_filter_ne]

/-- Once `rid` has left the pending table, no later event can settle it
again, and it never re-enters the table. -/
theorem runEvents_zero_of_not_pending (throws : Nat → Bool) (evs : List Ev) :
    ∀ st : Client, ∀ rid : String, rid ∉ st.pending →
      outcomeCount rid (runEvents throws st evs).2 = 0 ∧
        rid ∉ (runEvents throws st evs).1.pending := by
  induction evs with
  | nil => intro st rid h; exact ⟨rfl, h⟩
  | cons e es ih =>
    intro st rid h
    have h1 := stepEv_of_not_pending throws st e rid h
    have h2 := ih (stepEv throws st e).1 rid h1.2
    refine ⟨?_, h2.2⟩
    simp [runEvents, outcomeCount_append, h1.1, h2.1]

/-- If `rid` is pending and its timeout event is in the trace, exactly one
outcome for `rid` is emitted over the whole trace. -/
theorem runEvents_one_of_timeout (throws : Nat → Bool) (evs : List Ev) :
    ∀ st : Client, ∀ rid : String, rid ∈ st.pending →
      Ev.timeoutFire rid ∈ evs →
      outcomeCount rid (runEvents throws st evs).2 = 1 := by
  induction evs with
  | nil => intro st rid _ ht; cases ht
  | cons e es ih =>
    intro st rid hp ht
    by_cases he : e = Ev.timeoutFire rid
    · subst he
      have h1 := stepEv_timeout_of_pending throws st rid hp
      have h2 := runEvents_zero_of_not_pending throws es
        (stepEv throws st (Ev.timeoutFire rid)).1 rid h1.2
      simp [runEvents, outcomeCount_append, h1.1, h2.1]
    · have htes : Ev.timeoutFire rid ∈ es := by
        cases List.mem_cons.mp ht with
        | inl hh => exact absurd hh.symm he
        | inr hh => exact hh
      rcases stepEv_of_pending throws st e rid hp with h1 | h1
      · have h2 := runEvents_zero_of_not_pending throws es
          (stepEv throws st e).1 rid h1.2
        simp [runEvents, outcomeCount_append, h1.1, h2.1]
      · have h2 := ih (stepEv throws st e).1 rid h1.2 htes
        simp [runEvents, outcomeCount_append, h1.1, h2]

theorem mem_pendingInsert (l : List String) (rid : String) :
    rid ∈ pendingInsert l rid := by
  by_cases h : rid ∈ l <;> simp [pendingInsert, h]

/-- A fully-drained `processQueue` run: with the connection flag constantly
`true`, the loop empties the queue and sends every queued frame in order. -/
theorem processQueueGo_const_true (pend : List String) (q : List OutFrame) :
    (processQueueGo (fun _ => true) pend q).2.1 = [] ∧
      (processQueueGo (fun _ => true) pend q).2.2 = q.map Effect.send := by
  induction q generalizing pend with
  | nil => simp [processQueueGo]
  | cons item rest ih =>
    simpa [processQueueGo] using ih (pendingInsert pend item.request_id)

/-! ### Claim theorems -/

/-- C1: for every call dispatched while Connected, exactly one of
resolve / reject / timeout-reject fires, exactly once: over any trace of
timer and inbound-frame events that contains the call's timeout timer
event, exactly one outcome effect for the call's request id is emitted —
the `pending.has` guards on the response path and on the timeout path make
the two mutually exclusive. -/
theorem call_connected_exactly_one_outcome (throws : Nat → Bool)
    (st : Client) (rid methodRaw : String) (params : Option String)
    (evs : List Ev) (hconn : st.isConnected = true)
    (htimer : Ev.timeoutFire rid ∈ evs) :
    outcomeCount rid
      (runEvents throws (call st rid methodRaw params).1 evs).2 = 1 := by
  have hp : rid ∈ (call st rid methodRaw params).1.pending := by
    simp [call, sendToWs, hconn, callPayload, mem_pendingInsert]
  exact runEvents_one_of_timeout throws evs _ rid hp htimer

/-- A connected client with empty tables, used to instantiate theorems. -/
def sampleConnected : Client :=
  { isConnected := true, isConnecting := false, pending := [], queue := [],
    retryCount := 0, options := Options.defaults, id := "client-uuid",
    tableSubs := [], traceSubs := [] }

theorem call_connected_exactly_one_outcome_witness :
    sampleConnected.isConnected = true ∧
    Ev.timeoutFire "r1" ∈ [Ev.timeoutFire "r1"] ∧
    outcomeCount "r1"
      (runEvents noThrow (call sampleConnected "r1" "get_info" none).1
        [Ev.timeoutFire "r1"]).2 = 1 :=
  ⟨rfl, by decide,
    call_connected_exactly_one_outcome noThrow sampleConnected "r1"
      "get_info" none [Ev.timeoutFire "r1"] rfl (by decide)⟩

/-- C2 (amended): on every successful (re)connection the handler resets
the Retry Counter, then replays the Subscription Registry, then drains the
Offline Queue (in FIFO order, fully, since the flag stays up during the
synchronous drain), then restarts the Liveness Monitor — replay comes
BEFORE the drain, not after it. -/
theorem onOpen_resets_replays_drains_heartbeats (st : Client) :
    (onOpen st).1.retryCount = 0 ∧
    (onOpen st).1.isConnected = true ∧
    (onOpen st).1.queue = [] ∧
    (onOpen st).2 = Effect.resetRetry ::
      (resubscribeAll (connectedView st) ++ st.queue.map Effect.send ++
        [Effect.startHeartbeat]) := by
  have h := processQueueGo_const_true st.pending st.queue
  simp [onOpen, connectedView] at h ⊢
  exact ⟨h.1, h.2⟩

/-- A queued generic call, used by the C2 counterexample. -/
def qFrameC2 : OutFrame :=
  { request_id := "q1", type := "get_info", params := Params.str "" }

/-- The subscribe frame replayed for the topic `table:a:b:c` by the C2
counterexample client. -/
def subFrameC2 : OutFrame :=
  { request_id := "cid", type := "subscribe_table",
    params := Params.table "a" "b" (some "c") }

/-- A disconnected client holding one queued call and one registered table
topic, about to reconnect. -/
def clientC2 : Client :=
  { isConnected := false, isConnecting := true, pending := [],
    queue := [qFrameC2], retryCount := 5, options := Options.defaults,
    id := "cid", tableSubs := [("table:a:b:c", [0])], traceSubs := [] }

/-- C2 counterexample: on reconnection the replayed subscribe frame is
sent strictly BEFORE the queued call drains, refuting the claimed
drain-then-replay order at this concrete state. -/
theorem onOpen_claimed_order_counterexample :
    (onOpen clientC2).2 = [Effect.resetRetry, Effect.send subFrameC2,
      Effect.send qFrameC2, Effect.startHeartbeat] ∧
    subFrameC2 ≠ qFrameC2 ∧
    (onOpen clientC2).2.findIdx (fun e => e = Effect.send subFrameC2) <
      (onOpen clientC2).2.findIdx (fun e => e = Effect.send qFrameC2) := by
  decide

/-- `true` exactly on promise-rejecting effects. -/
def isRejectEff : Effect → Bool
  | Effect.reject _ _ => true
  | _ => false

/-- `true` exactly on promise-resolving effects. -/
def isResolveEff : Effect → Bool
  | Effect.resolve _ _ => true
  | _ => false

/-- C3 (amended): the class exposes no explicit close/teardown operation;
the only closure path is the transport's `onclose` handler, and it rejects
neither pending nor queued calls (both survive unchanged) and schedules a
reconnection attempt exactly when `autoReconnect` is enabled and the Retry
Counter is below `maxRetries` — regardless of whether the closure was
deliberate. -/
theorem onClose_keeps_calls_and_reconnects (st : Client) :
    (onClose st).1.pending = st.pending ∧
    (onClose st).1.queue = st.queue ∧
    (onClose st).1.isConnected = false ∧
    (∀ e ∈ (onClose st).2, isRejectEff e = false ∧ isResolveEff e = false) ∧
    ((∃ i, Effect.scheduleReconnect i ∈ (onClose st).2) ↔
      (st.options.autoReconnect = true ∧
        st.retryCount < st.options.maxRetries)) := by
  by_cases har : st.options.autoReconnect = true
  · by_cases hlt : st.retryCount < st.options.maxRetries
    · refine ⟨?_, ?_, ?_, ?_, ?_⟩ <;>
        simp [onClose, attemptReconnect, har, hlt, isRejectEff, isResolveEff]
    · refine ⟨?_, ?_, ?_, ?_, ?_⟩ <;>
        simp [onClose, attemptReconnect, har, hlt, isRejectEff, isResolveEff]
  · refine ⟨?_, ?_, ?_, ?_, ?_⟩ <;>
      simp [onClose, attemptReconnect, har, isRejectEff, isResolveEff]

/-- A queued generic call, used by the C3 counterexample. -/
def qFrameC3 : OutFrame :=
  { request_id := "q9", type := "get_account", params := Params.obj "eosio" }

/-- A connected client with one pending and one queued call, default
options (`autoReconnect = true`, `maxRetries = 10`,
`reconnectInterval = 3000`). -/
def clientC3 : Client :=
  { isConnected := true, isConnecting := false, pending := ["r1"],
    queue := [qFrameC3], retryCount := 0, options := Options.defaults,
    id := "cid3", tableSubs := [], traceSubs := [] }

/-- C3 counterexample: when this client's connection closes — the only
teardown path the class has — the still-pending call and the still-queued
call are NOT rejected (both survive), and a reconnection attempt IS
scheduled. -/
theorem close_teardown_counterexample :
    (onClose clientC3).2 =
      [Effect.stopHeartbeat, Effect.scheduleReconnect 3000] ∧
    (onClose clientC3).1.pending = ["r1"] ∧
    (onClose clientC3).1.queue = [qFrameC3] := by
  decide

theorem runCallbacks_noThrow (l : List Nat) : runCallbacks noThrow l = l := by
  induction l with
  | nil => rfl
  | cons x xs ih => simp [runCallbacks, noThrow, ih]

/-- `forEach` runs the callbacks before the first throwing one, then the
throwing one, and nothing after it. -/
theorem runCallbacks_stops_at_throwing (throws : Nat → Bool)
    (l1 l2 : List Nat) (th : Nat) (h1 : ∀ x ∈ l1, throws x = false)
    (hth : throws th = true) :
    runCallbacks throws (l1 ++ th :: l2) = l1 ++ [th] := by
  induction l1 with
  | nil => simp [runCallbacks, hth]
  | cons x xs ih =>
    have hx := h1 x (by simp)
    simp [runCallbacks, hx, ih (fun y hy => h1 y (by simp [hy]))]

/-- C4 (amended): if a registered callback throws during a push-event
fan-out, the callbacks after it in the combined matching list do NOT run —
the exception aborts the `forEach`; it is swallowed by `handleMessage`'s
`try/catch`, so the client state itself is unaffected. -/
theorem dispatch_throwing_callback_aborts_fanout (throws : Nat → Bool)
    (st : Client) (m : InMsg) (l1 l2 : List Nat) (th : Nat)
    (hm : m.type = "table_delta")
    (hsplit : matchedTableCallbacks st m = l1 ++ th :: l2)
    (h1 : ∀ x ∈ l1, throws x = false) (hth : throws th = true) :
    (handleMessage throws st m).2 = (l1 ++ [th]).map Effect.invoke ∧
    (handleMessage throws st m).1 = st := by
  constructor
  · simp [handleMessage, hm, dispatchSubscription, hsplit,
      runCallbacks_stops_at_throwing throws l1 l2 th h1 hth]
  · simp [handleMessage, hm]

/-- A connected client with two callbacks registered on `table:a:b:c`. -/
def clientC4 : Client :=
  { isConnected := true, isConnecting := false, pending := [], queue := [],
    retryCount := 0, options := Options.defaults, id := "cid4",
    tableSubs := [("table:a:b:c", [0, 1])], traceSubs := [] }

/-- A table-mutation event for code `a`, table `b`, scope `c`. -/
def deltaC4 : InMsg :=
  { type := "table_delta", code := "a", table := "b", scope := "c" }

/-- Callback `0` throws when invoked; callback `1` does not. -/
def throwsC4 : Nat → Bool := fun n => n == 0

theorem dispatch_throwing_callback_aborts_fanout_witness :
    deltaC4.type = "table_delta" ∧
    matchedTableCallbacks clientC4 deltaC4 = [] ++ 0 :: [1] ∧
    throwsC4 0 = true ∧
    ((handleMessage throwsC4 clientC4 deltaC4).2 =
        ([] ++ [0]).map Effect.invoke ∧
      (handleMessage throwsC4 clientC4 deltaC4).1 = clientC4) :=
  ⟨rfl, by decide, rfl,
    dispatch_throwing_callback_aborts_fanout throwsC4 clientC4 deltaC4
      [] [1] 0 rfl (by decide) (by intro x hx; cases hx) rfl⟩

/-- C4 counterexample: with callbacks `0` and `1` both registered for the
matching topic and callback `0` throwing, callback `1` never runs in that
fan-out. -/
theorem dispatch_remaining_callback_skipped_counterexample :
    (handleMessage throwsC4 clientC4 deltaC4).2 = [Effect.invoke 0] ∧
    Effect.invoke 1 ∉ (handleMessage throwsC4 clientC4 deltaC4).2 ∧
    1 ∈ matchedTableCallbacks clientC4 deltaC4 := by
  decide

theorem drainCount_le (q : List OutFrame) :
    ∀ conn : Nat → Bool, drainCount conn q ≤ q.length := by
  induction q with
  | nil => intro conn; simp [drainCount]
  | cons item rest ih =>
    intro conn
    by_cases h0 : conn 0 = true
    · simpa [drainCount, h0] using ih (fun i => conn (i + 1))
    · simp [drainCount, h0]

/-- The drain loop processes exactly the first `drainCount` entries: what
it sent, what remains queued, and the connection flag it observed. -/
theorem processQueueGo_spec (q : List OutFrame) :
    ∀ (conn : Nat → Bool) (pend : List String),
      (processQueueGo conn pend q).2.1 = q.drop (drainCount conn q) ∧
      (processQueueGo conn pend q).2.2 =
        (q.take (drainCount conn q)).map Effect.send ∧
      (∀ k, k < drainCount conn q → conn k = true) ∧
      (drainCount conn q < q.length → conn (drainCount conn q) = false) := by
  induction q with
  | nil => intro conn pend; simp [processQueueGo, drainCount]
  | cons item rest ih =>
    intro conn pend
    by_cases h0 : conn 0 = true
    · obtain ⟨ih1, ih2, ih3, ih4⟩ :=
        ih (fun i => conn (i + 1)) (pendingInsert pend item.request_id)

      refine ⟨?_, ?_, ?_, ?_⟩
      · simpa [processQueueGo, drainCount, h0] using ih1
      · simpa [processQueueGo, drainCount, h0] using ih2
      · intro k hk
        simp only [drainCount, h0, if_true] at hk
        cases k with
        | zero => exact h0
        | succ k0 => exact ih3 k0 (by omega)
      · intro hlt
        simp only [drainCount, h0, if_true] at hlt ⊢
        simp only [List.length_cons] at hlt
        exact ih4 (by omega)
    · refine ⟨?_, ?_, ?_, ?_⟩ <;>
        simp [processQueueGo, drainCount, h0, Bool.not_eq_true] at *

/-- C5: calls made while Disconnected are appended to the Offline Queue,
and on the next Connected transition the drain loop dispatches exactly a
prefix of the queue in FIFO order — all of it while the connection flag
stays up, and if the flag is observed down mid-drain the loop stops with
the remaining entries still queued, in order. -/
theorem offline_queue_fifo_drain (conn : Nat → Bool) (pend : List String)
    (q : List OutFrame) (st : Client) (rid methodRaw : String)
    (params : Option String) (hdis : st.isConnected = false) :
    (∃ n, n ≤ q.length ∧
      (processQueueGo conn pend q).2.1 = q.drop n ∧
      (processQueueGo conn pend q).2.2 = (q.take n).map Effect.send ∧
      (∀ k, k < n → conn k = true) ∧
      (n < q.length → conn n = false)) ∧
    (call st rid methodRaw params).1.queue =
      st.queue ++ [callPayload rid methodRaw params] := by
  constructor
  · obtain ⟨h1, h2, h3, h4⟩ := processQueueGo_spec q conn pend
    exact ⟨drainCount conn q, drainCount_le q conn, h1, h2, h3, h4⟩
  · by_cases hc : st.isConnecting <;> simp [call, hdis, hc]

/-- A disconnected client holding one queued call. -/
def clientC5 : Client :=
  { isConnected := false, isConnecting := true, pending := [],
    queue := [qFrameC2], retryCount := 1, options := Options.defaults,
    id := "cid5", tableSubs := [], traceSubs := [] }

theorem offline_queue_fifo_drain_witness :
    clientC5.isConnected = false ∧
    ((∃ n, n ≤ [qFrameC2].length ∧
      (processQueueGo (fun k => k == 0) [] [qFrameC2]).2.1 =
        [qFrameC2].drop n ∧
      (processQueueGo (fun k => k == 0) [] [qFrameC2]).2.2 =
        ([qFrameC2].take n).map Effect.send ∧
      (∀ k, k < n → (fun k : Nat => k == 0) k = true) ∧
      (n < [qFrameC2].length → (fun k : Nat => k == 0) n = false)) ∧
    (call clientC5 "r5" "get_info" none).1.queue =
      clientC5.queue ++ [callPayload "r5" "get_info" none]) :=
  ⟨rfl, offline_queue_fifo_drain (fun k => k == 0) [] [qFrameC2] clientC5
    "r5" "get_info" none rfl⟩

theorem lookupKey_nil (k : String) : lookupKey [] k = none := rfl

theorem lookupKey_cons (e : String × List Nat) (l : List (String × List Nat))
    (k : String) :
    lookupKey (e :: l) k = if e.1 = k then some e.2 else lookupKey l k := by
  by_cases h : e.1 = k <;> simp [lookupKey, List.find?_cons, h]

theorem lookupKey_append_of_none (l l2 : List (String × List Nat))
    (k : String) (h : lookupKey l k = none) :
    lookupKey (l ++ l2) k = lookupKey l2 k := by
  induction l with
  | nil => simp
  | cons e l ih =>
    rw [lookupKey_cons] at h
    by_cases he : e.1 = k
    · simp [he] at h
    · rw [List.cons_append, lookupKey_cons, if_neg he]
      exact ih (by simpa [he] using h)

theorem pushCb_append_of_none (l l2 : List (String × List Nat))
    (k : String) (cb : Nat) (h : lookupKey l k = none) :
    pushCb (l ++ l2) k cb = l ++ pushCb l2 k cb := by
  induction l with
  | nil => simp [pushCb]
  | cons e l ih =>
    rw [lookupKey_cons] at h
    by_cases he : e.1 = k
    · simp [he] at h
    · simp only [List.cons_append, pushCb, if_neg he, List.append_eq]
      rw [ih (by simpa [he] using h)]

theorem setCbs_append_of_none (l l2 : List (String × List Nat))
    (k : String) (v : List Nat) (h : lookupKey l k = none) :
    setCbs (l ++ l2) k v = l ++ setCbs l2 k v := by
  induction l with
  | nil => simp [setCbs]
  | cons e l ih =>
    rw [lookupKey_cons] at h
    by_cases he : e.1 = k
    · simp [he] at h
    · simp only [List.cons_append, setCbs, if_neg he, List.append_eq]
      rw [ih (by simpa [he] using h)]

theorem delKey_append_of_none (l l2 : List (String × List Nat))
    (k : String) (h : lookupKey l k = none) :
    delKey (l ++ l2) k = l ++ delKey l2 k := by
  induction l with
  | nil => simp [delKey]
  | cons e l ih =>
    rw [lookupKey_cons] at h
    by_cases he : e.1 = k
    · simp [he] at h
    · simp only [List.cons_append, delKey, if_neg he, List.append_eq]
      rw [ih (by simpa [he] using h)]

/-- Registration of a new topic: the entry is appended and, when
Connected, one subscribe frame is sent. -/
theorem subscribeTable_fresh_connected (st : Client)
    (code scope table : String) (cb : Nat)
    (hfresh : lookupKey st.tableSubs (tableKey code scope table) = none)
    (hconn : st.isConnected = true) :
    subscribeTable st code scope table cb =
      ({ st with tableSubs :=
          st.tableSubs ++ [(tableKey code scope table, [cb])] },
       [Effect.send (subTablePayload st.id code scope table)]) := by
  simp [subscribeTable, hfresh, hconn]

/-- Registration of a new topic never touches `pending` and appends the
entry regardless of connection state. -/
theorem subscribeTable_fresh_state (st : Client)
    (code scope table : String) (cb : Nat)
    (hfresh : lookupKey st.tableSubs (tableKey code scope table) = none) :
    (subscribeTable st code scope table cb).1 =
      { st with tableSubs :=
          st.tableSubs ++ [(tableKey code scope table, [cb])] } := by
  simp only [subscribeTable, hfresh, Option.isSome_none, Bool.false_eq_true,
    if_false]

/-- Registration on an existing topic only appends the callback. -/
theorem subscribeTable_existing (st : Client) (code scope table : String)
    (cb : Nat) (v : List Nat)
    (h : lookupKey st.tableSubs (tableKey code scope table) = some v) :
    subscribeTable st code scope table cb =
      ({ st with tableSubs := pushCb st.tableSubs (tableKey code scope table) cb },
       []) := by
  simp [subscribeTable, h]

theorem removeFirstCb_head (x : Nat) (xs : List Nat) :
    removeFirstCb (x :: xs) x = xs := by
  simp [removeFirstCb]

/-- C6: with the client Connected, registering two callbacks for the same
(fresh) topic key sends exactly one subscribe frame; disposing one of them
keeps the topic entry and sends nothing; disposing the last one deletes
the entry and sends exactly one unsubscribe frame — and in general the
last disposal sends the unsubscribe frame if and only if the client is
Connected at that moment. -/
theorem subscribe_counts_and_last_unsubscribe (st : Client)
    (code scope table : String) (cb1 cb2 : Nat)
    (hfresh : lookupKey st.tableSubs (tableKey code scope table) = none)
    (hconn : st.isConnected = true) :
    countSends "subscribe_table"
        ((subscribeTable st code scope table cb1).2 ++
          (subscribeTable (subscribeTable st code scope table cb1).1
            code scope table cb2).2) = 1 ∧
    (unsubscribeTable
        (subscribeTable (subscribeTable st code scope table cb1).1
          code scope table cb2).1 code scope table cb1).2 = [] ∧
    lookupKey
        (unsubscribeTable
          (subscribeTable (subscribeTable st code scope table cb1).1
            code scope table cb2).1 code scope table cb1).1.tableSubs
        (tableKey code scope table) = some [cb2] ∧
    lookupKey
        (unsubscribeTable
          (unsubscribeTable
            (subscribeTable (subscribeTable st code scope table cb1).1
              code scope table cb2).1 code scope table cb1).1
          code scope table cb2).1.tableSubs
        (tableKey code scope table) = none ∧
    countSends "unsubscribe_table"
        (unsubscribeTable
          (unsubscribeTable
            (subscribeTable (subscribeTable st code scope table cb1).1
              code scope table cb2).1 code scope table cb1).1
          code scope table cb2).2 = 1 ∧
    (∀ st' : Client,
      lookupKey st'.tableSubs (tableKey code scope table) = some [cb2] →
      countSends "unsubscribe_table"
          (unsubscribeTable st' code scope table cb2).2 =
        if st'.isConnected then 1 else 0) := by
  have e1 := subscribeTable_fresh_connected st code scope table cb1 hfresh hconn
  have hlook1 : lookupKey
      (st.tableSubs ++ [(tableKey code scope table, [cb1])])
      (tableKey code scope table) = some [cb1] := by
    rw [lookupKey_append_of_none _ _ _ hfresh, lookupKey_cons]
    simp
  have hpush : pushCb (st.tableSubs ++ [(tableKey code scope table, [cb1])])
      (tableKey code scope table) cb2 =
      st.tableSubs ++ [(tableKey code scope table, [cb1, cb2])] := by
    rw [pushCb_append_of_none _ _ _ _ hfresh]
    simp [pushCb]
  have e2 : subscribeTable (subscribeTable st code scope table cb1).1
      code scope table cb2 =
      ({ st with tableSubs :=
          st.tableSubs ++ [(tableKey code scope table, [cb1, cb2])] }, []) := by
    rw [e1]
    rw [subscribeTable_existing _ code scope table cb2 [cb1] hlook1]
    simp only [hpush]
  have hlook2 : lookupKey
      (st.tableSubs ++ [(tableKey code scope table, [cb1, cb2])])
      (tableKey code scope table) = some [cb1, cb2] := by
    rw [lookupKey_append_of_none _ _ _ hfresh, lookupKey_cons]
    simp
  have hset : setCbs (st.tableSubs ++ [(tableKey code scope table, [cb1, cb2])])
      (tableKey code scope table) [cb2] =
      st.tableSubs ++ [(tableKey code scope table, [cb2])] := by
    rw [setCbs_append_of_none _ _ _ _ hfresh]
    simp [setCbs]
  have e3 : unsubscribeTable
      (subscribeTable (subscribeTable st code scope table cb1).1
        code scope table cb2).1 code scope table cb1 =
      ({ st with tableSubs :=
          st.tableSubs ++ [(tableKey code scope table, [cb2])] }, []) := by
    rw [e2]
    simp [unsubscribeTable, hlook2, removeFirstCb, hset]
  have hlook3 : lookupKey
      (st.tableSubs ++ [(tableKey code scope table, [cb2])])
      (tableKey code scope table) = some [cb2] := by
    rw [lookupKey_append_of_none _ _ _ hfresh, lookupKey_cons]
    simp
  have hdel : delKey (st.tableSubs ++ [(tableKey code scope table, [cb2])])
      (tableKey code scope table) = st.tableSubs := by
    rw [delKey_append_of_none _ _ _ hfresh]
    simp [delKey]
  have e4 : unsubscribeTable
      (unsubscribeTable
        (subscribeTable (subscribeTable st code scope table cb1).1
          code scope table cb2).1 code scope table cb1).1
      code scope table cb2 =
      (⟨st.isConnected, st.isConnecting, st.pending, st.queue,
        st.retryCount, st.options, st.id, st.tableSubs, st.traceSubs⟩,
       [Effect.send (unsubTablePayload st.id code scope table)]) := by
    rw [e3]
    simp [unsubscribeTable, hlook3, removeFirstCb, hdel, hconn]
  refine ⟨?_, ?_, ?_, ?_, ?_, ?_⟩
  · rw [e2, e1]
    simp [countSends, sentFrames, subTablePayload]
  · rw [e3]
  · rw [e3]; exact hlook3
  · rw [e4]; exact hfresh
  · rw [e4]; simp [countSends, sentFrames, unsubTablePayload]
  · intro st' hl
    simp only [unsubscribeTable, hl, removeFirstCb_head]
    by_cases hc : st'.isConnected <;>
      simp [hc, countSends, sentFrames, unsubTablePayload, removeFirstCb]

theorem subscribe_counts_and_last_unsubscribe_witness :
    lookupKey sampleConnected.tableSubs
        (tableKey "eosio.token" "alice" "accounts") = none ∧
    sampleConnected.isConnected = true ∧
    countSends "subscribe_table"
        ((subscribeTable sampleConnected "eosio.token" "alice" "accounts" 0).2 ++
          (subscribeTable
            (subscribeTable sampleConnected "eosio.token" "alice" "accounts" 0).1
            "eosio.token" "alice" "accounts" 1).2) = 1 :=
  ⟨rfl, rfl,
    (subscribe_counts_and_last_unsubscribe sampleConnected "eosio.token"
      "alice" "accounts" 0 1 rfl rfl).1⟩
theorem string_append_cancel_left (p a b : String) (h : p ++ a = p ++ b) :
    a = b := by
  have hd : (p ++ a).data = (p ++ b).data := by rw [h]
  rw [String.data_append, String.data_append] at hd
  exact String.ext (List.append_cancel_left hd)

theorem append_colon_star (x : String) : x ++ ":" ++ "*" = x ++ ":*" := by
  have h : (":" : String) ++ "*" = ":*" := rfl
  rw [String.append_assoc, h]

/-- A table-mutation event frame with the given code, table and scope. -/
def deltaMsg (c t s : String) : InMsg :=
  { type := "table_delta", code := c, table := t, scope := s }

/-- An action-trace event frame for account `a` and action name `n`. -/
def traceMsg (a n : String) : InMsg :=
  { type := "action_trace", account := a, name := n }

theorem tableKey_empty_scope (c t : String) :
    tableKey c "" t = "table:" ++ c ++ ":" ++ t ++ ":*" := by
  have h : tableKey c "" t = "table:" ++ c ++ ":" ++ t ++ ":" ++ "*" := by
    simp [tableKey]
  rw [h, append_colon_star]

theorem tableKey_ne_specific (c t s sp : String) (hs : sp ≠ "")
    (hne : sp ≠ s) :
    tableKey c sp t ≠ "table:" ++ c ++ ":" ++ t ++ ":" ++ s := by
  intro h
  have h1 : tableKey c sp t = "table:" ++ c ++ ":" ++ t ++ ":" ++ sp := by
    simp [tableKey, hs]
  rw [h1] at h
  exact hne (string_append_cancel_left _ _ _ h)

theorem tableKey_ne_wildcard (c t sp : String) (hs : sp ≠ "")
    (hw : sp ≠ "*") :
    tableKey c sp t ≠ "table:" ++ c ++ ":" ++ t ++ ":*" := by
  intro h
  have h1 : tableKey c sp t = "table:" ++ c ++ ":" ++ t ++ ":" ++ sp := by
    simp [tableKey, hs]
  rw [h1, ← append_colon_star] at h
  exact hw (string_append_cancel_left _ _ _ h)

/-- C7: a table-mutation event is dispatched to the callbacks of the exact
`code:table:scope` key followed by those of the wildcard `code:table:*`
key (each set in insertion order, no deduplication); a topic registered
with wildcard (empty) scope therefore fires for any event scope, while a
topic registered with a different concrete scope fires for none of them;
a trace event is dispatched to the exact `account:action` key only. -/
theorem dispatch_exact_then_wildcard (st stW stC : Client)
    (c t s sp a n : String) (cb : Nat)
    (hW : lookupKey stW.tableSubs (tableKey c "" t) = none)
    (hC : stC.tableSubs = [])
    (hs1 : sp ≠ s) (hs2 : sp ≠ "") (hs3 : sp ≠ "*") :
    dispatchSubscription noThrow st (deltaMsg c t s) =
      (lookupD st.tableSubs (deltaSpecificKey (deltaMsg c t s)) ++
        lookupD st.tableSubs (deltaWildcardKey (deltaMsg c t s))).map
        Effect.invoke ∧
    dispatchSubscription noThrow st (traceMsg a n) =
      (lookupD st.traceSubs (traceKeyOf (traceMsg a n))).map Effect.invoke ∧
    Effect.invoke cb ∈
      dispatchSubscription noThrow (subscribeTable stW c "" t cb).1
        (deltaMsg c t s) ∧
    dispatchSubscription noThrow (subscribeTable stC c sp t cb).1
      (deltaMsg c t s) = [] := by
  have hdelta : ∀ st0 : Client, dispatchSubscription noThrow st0
      (deltaMsg c t s) =
      (matchedTableCallbacks st0 (deltaMsg c t s)).map Effect.invoke := by
    intro st0
    simp [dispatchSubscription, deltaMsg, runCallbacks_noThrow]
  refine ⟨?_, ?_, ?_, ?_⟩
  · rw [hdelta st]
    rfl
  · have hm : (traceMsg a n).type = "action_trace" := rfl
    simp only [dispatchSubscription, hm]
    cases hl : lookupKey st.traceSubs (traceKeyOf (traceMsg a n)) with
    | none => simp [lookupD, hl]
    | some cbs => simp [lookupD, hl, runCallbacks_noThrow]
  · rw [subscribeTable_fresh_state stW c "" t cb hW, hdelta]
    have hkey : deltaWildcardKey (deltaMsg c t s) = tableKey c "" t := by
      rw [tableKey_empty_scope]; rfl
    have hlook : lookupD (stW.tableSubs ++ [(tableKey c "" t, [cb])])
        (deltaWildcardKey (deltaMsg c t s)) = [cb] := by
      rw [lookupD, hkey, lookupKey_append_of_none _ _ _ hW, lookupKey_cons]
      simp
    simp only [matchedTableCallbacks]
    rw [hlook]
    simp
  · rw [subscribeTable_fresh_state stC c sp t cb (by rw [hC]; rfl), hdelta]
    have hns : lookupKey [(tableKey c sp t, [cb])]
        (deltaSpecificKey (deltaMsg c t s)) = none := by
      rw [lookupKey_cons, if_neg]
      · rfl
      · exact tableKey_ne_specific c t s sp hs2 hs1
    have hnw : lookupKey [(tableKey c sp t, [cb])]
        (deltaWildcardKey (deltaMsg c t s)) = none := by
      rw [lookupKey_cons, if_neg]
      · rfl
      · exact tableKey_ne_wildcard c t sp hs2 hs3
    simp [matchedTableCallbacks, hC, lookupD, hns, hnw]

theorem dispatch_exact_then_wildcard_witness :
    lookupKey sampleConnected.tableSubs (tableKey "eosio.token" "" "accounts") =
      none ∧
    sampleConnected.tableSubs = [] ∧
    ("bob" : String) ≠ "alice" ∧ ("bob" : String) ≠ "" ∧
    ("bob" : String) ≠ "*" ∧
    Effect.invoke 7 ∈
      dispatchSubscription noThrow
        (subscribeTable sampleConnected "eosio.token" "" "accounts" 7).1
        (deltaMsg "eosio.token" "accounts" "alice") :=
  ⟨rfl, rfl, by decide, by decide, by decide,
    (dispatch_exact_then_wildcard sampleConnected sampleConnected
      sampleConnected "eosio.token" "accounts" "alice" "bob" "atomicassets"
      "logtransfer" 7 rfl rfl (by decide) (by decide) (by decide)).2.2.1⟩

/-- C8: an inbound frame not classified as pong or push event is treated
as a response: when its id matches a pending entry the timer is cleared,
the entry removed, and exactly one settlement occurs — a rejection
carrying the remote error message when the frame's type is `error` (never
a resolution), a resolution with the result otherwise (never a
rejection); when its id matches no pending entry, the frame is dropped
with no state change and no effect. -/
theorem response_settles_or_drops (throws : Nat → Bool) (st : Client)
    (m : InMsg) (h1 : m.type ≠ "pong") (h2 : m.type ≠ "table_delta")
    (h3 : m.type ≠ "action_trace") :
    ((m.request_id ≠ "" ∧ m.request_id ∈ st.pending) →
      (handleMessage throws st m).1.pending =
          st.pending.filter (fun r => r ≠ m.request_id) ∧
        Effect.clearTimer m.request_id ∈ (handleMessage throws st m).2 ∧
        outcomeCount m.request_id (handleMessage throws st m).2 = 1 ∧
        (m.type = "error" →
          Effect.reject m.request_id m.message ∈
              (handleMessage throws st m).2 ∧
            ∀ r, Effect.resolve m.request_id r ∉
              (handleMessage throws st m).2) ∧
        (m.type ≠ "error" →
          Effect.resolve m.request_id m.result ∈
              (handleMessage throws st m).2 ∧
            ∀ e, Effect.reject m.request_id e ∉
              (handleMessage throws st m).2)) ∧
    ((m.request_id = "" ∨ m.request_id ∉ st.pending) →
      handleMessage throws st m = (st, [])) := by
  constructor
  · intro h4
    have hred : handleMessage throws st m =
        ({ st with pending := st.pending.filter (fun r => r ≠ m.request_id) },
         Effect.clearTimer m.request_id ::
           (if m.type = "error" then [Effect.reject m.request_id m.message]
            else [Effect.resolve m.request_id m.result])) := by
      simp [handleMessage, h1, h2, h3, h4]
    rw [hred]
    by_cases h5 : m.type = "error" <;>
      simp [h5, outcomeCount, isOutcome]
  · intro hcase
    have h4 : ¬ (m.request_id ≠ "" ∧ m.request_id ∈ st.pending) := by
      rcases hcase with hc | hc
      · exact fun hh => hh.1 hc
      · exact fun hh => hc hh.2
    simp [handleMessage, h1, h2, h3, h4]

/-- A client with two pending calls, used by the C8 witness. -/
def clientC8 : Client :=
  { isConnected := true, isConnecting := false, pending := ["r1", "r2"],
    queue := [], retryCount := 0, options := Options.defaults, id := "cid8",
    tableSubs := [], traceSubs := [] }

/-- A successful response frame for pending call `r1`. -/
def msgC8 : InMsg :=
  { type := "response", request_id := "r1", result := "payload" }

theorem response_settles_or_drops_witness :
    msgC8.type ≠ "pong" ∧ msgC8.type ≠ "table_delta" ∧
    msgC8.type ≠ "action_trace" ∧
    (((msgC8.request_id ≠ "" ∧ msgC8.request_id ∈ clientC8.pending) →
      (handleMessage noThrow clientC8 msgC8).1.pending =
          clientC8.pending.filter (fun r => r ≠ msgC8.request_id) ∧
        Effect.clearTimer msgC8.request_id ∈
          (handleMessage noThrow clientC8 msgC8).2 ∧
        outcomeCount msgC8.request_id
          (handleMessage noThrow clientC8 msgC8).2 = 1 ∧
        (msgC8.type = "error" →
          Effect.reject msgC8.request_id msgC8.message ∈
              (handleMessage noThrow clientC8 msgC8).2 ∧
            ∀ r, Effect.resolve msgC8.request_id r ∉
              (handleMessage noThrow clientC8 msgC8).2) ∧
        (msgC8.type ≠ "error" →
          Effect.resolve msgC8.request_id msgC8.result ∈
              (handleMessage noThrow clientC8 msgC8).2 ∧
            ∀ e, Effect.reject msgC8.request_id e ∉
              (handleMessage noThrow clientC8 msgC8).2)) ∧
    ((msgC8.request_id = "" ∨ msgC8.request_id ∉ clientC8.pending) →
      handleMessage noThrow clientC8 msgC8 = (clientC8, []))) :=
  ⟨by decide, by decide, by decide,
    response_settles_or_drops noThrow clientC8 msgC8 (by decide) (by decide)
      (by decide)⟩

theorem onClose_queue_pending (st : Client) :
    (onClose st).1.queue = st.queue ∧ (onClose st).1.pending = st.pending := by
  by_cases har : st.options.autoReconnect = true <;>
    by_cases hlt : st.retryCount < st.options.maxRetries <;>
    simp [onClose, attemptReconnect, har, hlt]

/-- In the never-reconnecting-server simulation, exactly
`maxRetries - retryCount` reconnection attempts get scheduled, and the
queue and pending table survive untouched. -/
theorem failLoop_spec (fuel : Nat) :
    ∀ st : Client, st.options.autoReconnect = true →
      st.options.maxRetries - st.retryCount < fuel →
      (failLoop fuel st).2 = st.options.maxRetries - st.retryCount ∧
      (failLoop fuel st).1.queue = st.queue ∧
      (failLoop fuel st).1.pending = st.pending ∧
      (failLoop fuel st).1.isConnected = false ∧
      (failLoop fuel st).1.isConnecting = false := by
  induction fuel with
  | zero => intro st har hf; omega
  | succ fuel ih =>
    intro st har hf
    by_cases hlt : st.retryCount < st.options.maxRetries
    · have hsched : ((onClose st).2.any isScheduleEff) = true := by
        simp [onClose, attemptReconnect, har, hlt, isScheduleEff]
      have hloop : failLoop (fuel + 1) st =
          ((failLoop fuel (onClose st).1).1,
           (failLoop fuel (onClose st).1).2 + 1) := by
        simp [failLoop, hsched]
      have ho : (onClose st).1.options = st.options ∧
          (onClose st).1.retryCount = st.retryCount + 1 ∧
          (onClose st).1.queue = st.queue ∧
          (onClose st).1.pending = st.pending := by
        refine ⟨?_, ?_, ?_, ?_⟩ <;>
          simp [onClose, attemptReconnect, har, hlt]
      have hrec := ih (onClose st).1
        (by rw [ho.1]; exact har)
        (by rw [ho.1, ho.2.1]; omega)
      obtain ⟨h1, h2, h3, h4, h5⟩ := hrec
      rw [ho.1, ho.2.1] at h1
      rw [ho.2.2.1] at h2
      rw [ho.2.2.2] at h3
      rw [hloop]
      refine ⟨?_, h2, h3, h4, h5⟩
      show (failLoop fuel (onClose st).1).2 + 1 =
        st.options.maxRetries - st.retryCount
      omega
    · have hsched : ((onClose st).2.any isScheduleEff) = false := by
        simp [onClose, attemptReconnect, har, hlt, isScheduleEff]
      have hloop : failLoop (fuel + 1) st = ((onClose st).1, 0) := by
        simp [failLoop, hsched]
      have ho : (onClose st).1.queue = st.queue ∧
          (onClose st).1.pending = st.pending ∧
          (onClose st).1.isConnected = false ∧
          (onClose st).1.isConnecting = false := by
        refine ⟨?_, ?_, ?_, ?_⟩ <;>
          simp [onClose, attemptReconnect, har, hlt]
      rw [hloop]
      refine ⟨?_, ho.1, ho.2.1, ho.2.2.1, ho.2.2.2⟩
      show (0 : Nat) = st.options.maxRetries - st.retryCount
      omega

theorem call_disconnected_queues (st : Client) (rid methodRaw : String)
    (ps : Option String) (h : st.isConnected = false) :
    (call st rid methodRaw ps).1.queue =
      st.queue ++ [callPayload rid methodRaw ps] ∧
    ∀ f, Effect.send f ∉ (call st rid methodRaw ps).2 := by
  by_cases hc : st.isConnecting <;> simp [call, h, hc]

/-- C9: with auto-reconnect on and a server that never comes back, the
close handler schedules one delayed attempt and bumps the Retry Counter
while the counter is below `maxRetries`; over the whole failure loop
exactly `maxRetries` attempts are ever scheduled (so exactly 2 when
`maxRetries = 2`); a call made afterwards is queued — nothing is sent for
it — and further closures leave the queue intact, so it drains only once
a connect eventually succeeds. -/
theorem bounded_reconnect_attempts (st : Client) (fuel : Nat)
    (rid methodRaw : String) (ps : Option String)
    (har : st.options.autoReconnect = true)
    (hrc : st.retryCount = 0)
    (hfuel : st.options.maxRetries < fuel) :
    (st.retryCount < st.options.maxRetries →
      attemptReconnect st =
        ({ st with retryCount := st.retryCount + 1 },
         [Effect.scheduleReconnect st.options.reconnectInterval])) ∧
    (failLoop fuel st).2 = st.options.maxRetries ∧
    (failLoop fuel st).1.queue = st.queue ∧
    (call (failLoop fuel st).1 rid methodRaw ps).1.queue =
      st.queue ++ [callPayload rid methodRaw ps] ∧
    (∀ f, Effect.send f ∉ (call (failLoop fuel st).1 rid methodRaw ps).2) ∧
    (onClose (call (failLoop fuel st).1 rid methodRaw ps).1).1.queue =
      (call (failLoop fuel st).1 rid methodRaw ps).1.queue := by
  obtain ⟨hcount, hq, hpend, hconn, hcing⟩ :=
    failLoop_spec fuel st har (by omega)
  obtain ⟨hcq, hcs⟩ := call_disconnected_queues (failLoop fuel st).1 rid
    methodRaw ps hconn
  refine ⟨?_, ?_, hq, ?_, hcs, ?_⟩
  · intro hlt; simp [attemptReconnect, hlt]
  · rw [hcount, hrc]; omega
  · rw [hcq, hq]
  · exact (onClose_queue_pending _).1

/-- Options with `maxRetries = 2` for the C9 witness scenario. -/
def optionsC9 : Options :=
  { autoConnect := true, autoReconnect := true, reconnectInterval := 3000,
    maxRetries := 2, requestTimeOut := 5000 }

/-- A fresh client configured with `maxRetries = 2` whose first connection
attempt is about to fail. -/
def clientC9 : Client :=
  { isConnected := false, isConnecting := true, pending := [], queue := [],
    retryCount := 0, options := optionsC9, id := "cid9",
    tableSubs := [], traceSubs := [] }

theorem bounded_reconnect_attempts_witness :
    clientC9.options.autoReconnect = true ∧
    clientC9.retryCount = 0 ∧
    clientC9.options.maxRetries < 3 ∧
    (failLoop 3 clientC9).2 = clientC9.options.maxRetries ∧
    (call (failLoop 3 clientC9).1 "r9" "get_info" none).1.queue =
      clientC9.queue ++ [callPayload "r9" "get_info" none] :=
  ⟨rfl, rfl, by decide,
    (bounded_reconnect_attempts clientC9 3 "r9" "get_info" none rfl rfl
      (by decide)).2.1,
    (bounded_reconnect_attempts clientC9 3 "r9" "get_info" none rfl rfl
      (by decide)).2.2.2.1⟩

theorem subscribeTable_control (st : Client) (code scope table : String)
    (cb : Nat) :
    (∀ f ∈ sentFrames (subscribeTable st code scope table cb).2,
        f.request_id = st.id) ∧
    (subscribeTable st code scope table cb).1.pending = st.pending := by
  by_cases hk : (lookupKey st.tableSubs (tableKey code scope table)).isSome
  · simp [subscribeTable, hk, sentFrames]
  · by_cases hc : st.isConnected <;> by_cases hcg : st.isConnecting <;>
      simp [subscribeTable, hk, hc, hcg, sentFrames, subTablePayload]

theorem unsubscribeTable_control (st : Client) (code scope table : String)
    (cb : Nat) :
    (∀ f ∈ sentFrames (unsubscribeTable st code scope table cb).2,
        f.request_id = st.id) ∧
    (unsubscribeTable st code scope table cb).1.pending = st.pending := by
  cases hl : lookupKey st.tableSubs (tableKey code scope table) with
  | none => simp [unsubscribeTable, hl, sentFrames]
  | some cbs =>
    by_cases he : removeFirstCb cbs cb = []
    · by_cases hc : st.isConnected <;>
        simp [unsubscribeTable, hl, he, hc, sentFrames, unsubTablePayload]
    · simp [unsubscribeTable, hl, he, sentFrames]

theorem subscribeTrace_control (st : Client) (codeAction : String)
    (cb : Nat) :
    ∀ stE effs, subscribeTrace st codeAction cb = Except.ok (stE, effs) →
      (∀ f ∈ sentFrames effs, f.request_id = st.id) ∧
      stE.pending = st.pending := by
  intro stE effs h
  simp only [subscribeTrace] at h
  split at h
  · exact Except.noConfusion h
  · split at h
    · injection h with h3
      injection h3 with ha hb
      subst ha; subst hb
      simp [sentFrames]
    · injection h with h3
      injection h3 with ha hb
      subst ha; subst hb
      by_cases hc : st.isConnected <;> by_cases hcg : st.isConnecting <;>
        simp [sentFrames, subTracePayload, hc, hcg]

theorem unsubscribeTrace_control (st : Client) (code action : String)
    (cb : Nat) :
    (∀ f ∈ sentFrames (unsubscribeTrace st code action cb).2,
        f.request_id = st.id) ∧
    (unsubscribeTrace st code action cb).1.pending = st.pending := by
  cases hl : lookupKey st.traceSubs ("trace:" ++ code ++ ":" ++ action) with
  | none => simp [unsubscribeTrace, hl, sentFrames]
  | some cbs =>
    by_cases he : removeFirstCb cbs cb = []
    · by_cases hc : st.isConnected <;>
        simp [unsubscribeTrace, hl, he, hc, sentFrames, unsubTracePayload]
    · simp [unsubscribeTrace, hl, he, sentFrames]

theorem resubscribeAll_control (st : Client) :
    ∀ f ∈ sentFrames (resubscribeAll st), f.request_id = st.id := by
  intro f hf
  simp only [resubscribeAll, sentFrames, List.filterMap_append,
    List.mem_append] at hf
  rcases hf with hf | hf <;>
  · simp only [List.filterMap_map, List.mem_filterMap, Function.comp] at hf
    obtain ⟨e, _, he⟩ := hf
    simp only [Option.some.injEq] at he
    rw [← he]

theorem call_keeps_client_id_out (st : Client) (rid methodRaw : String)
    (ps : Option String) (h : st.id ∉ st.pending) (hne : rid ≠ st.id) :
    st.id ∉ (call st rid methodRaw ps).1.pending := by
  by_cases hc : st.isConnected
  · have hne2 : ¬ (st.id = rid) := fun hh => hne hh.symm
    by_cases hr : rid ∈ st.pending <;>
      simp [call, sendToWs, hc, callPayload, pendingInsert, hr, h, hne2]
  · by_cases hcg : st.isConnecting <;> simp [call, hc, hcg, h]

theorem handleMessage_drop_unknown (throws : Nat → Bool) (st : Client)
    (m : InMsg) (h1 : m.type ≠ "pong") (h2 : m.type ≠ "table_delta")
    (h3 : m.type ≠ "action_trace") (h4 : m.request_id ∉ st.pending) :
    handleMessage throws st m = (st, []) := by
  have hng : ¬ (m.request_id ≠ "" ∧ m.request_id ∈ st.pending) :=
    fun hh => h4 hh.2
  simp [handleMessage, h1, h2, h3, hng]

/-- C10: every subscription control frame — initial subscribes,
unsubscribes, and every frame replayed by `resubscribeAll` — carries the
single uuid `this.id` generated at construction as its `request_id`; none
of these operations ever touches the pending table (and a generic call
inserts only its own fresh id), so a correlated response the server
returns for a control frame finds no pending entry and is silently
dropped. -/
theorem control_frames_reuse_client_id (st : Client)
    (code scope table codeAction tcode taction : String) (cb : Nat)
    (throws : Nat → Bool) (m : InMsg) (rid methodRaw : String)
    (ps : Option String)
    (hp : st.id ∉ st.pending)
    (hm1 : m.request_id = st.id)
    (hm2 : m.type ≠ "pong") (hm3 : m.type ≠ "table_delta")
    (hm4 : m.type ≠ "action_trace")
    (hrid : rid ≠ st.id) :
    (∀ f ∈ sentFrames (subscribeTable st code scope table cb).2,
        f.request_id = st.id) ∧
    (subscribeTable st code scope table cb).1.pending = st.pending ∧
    (∀ f ∈ sentFrames (unsubscribeTable st code scope table cb).2,
        f.request_id = st.id) ∧
    (unsubscribeTable st code scope table cb).1.pending = st.pending ∧
    (∀ stE effs, subscribeTrace st codeAction cb = Except.ok (stE, effs) →
      (∀ f ∈ sentFrames effs, f.request_id = st.id) ∧
        stE.pending = st.pending) ∧
    (∀ f ∈ sentFrames (unsubscribeTrace st tcode taction cb).2,
        f.request_id = st.id) ∧
    (unsubscribeTrace st tcode taction cb).1.pending = st.pending ∧
    (∀ f ∈ sentFrames (resubscribeAll st), f.request_id = st.id) ∧
    st.id ∉ (call st rid methodRaw ps).1.pending ∧
    handleMessage throws st m = (st, []) :=
  ⟨(subscribeTable_control st code scope table cb).1,
   (subscribeTable_control st code scope table cb).2,
   (unsubscribeTable_control st code scope table cb).1,
   (unsubscribeTable_control st code scope table cb).2,
   subscribeTrace_control st codeAction cb,
   (unsubscribeTrace_control st tcode taction cb).1,
   (unsubscribeTrace_control st tcode taction cb).2,
   resubscribeAll_control st,
   call_keeps_client_id_out st rid methodRaw ps hp hrid,
   handleMessage_drop_unknown throws st m hm2 hm3 hm4 (hm1 ▸ hp)⟩

/-- A control-frame response addressed to the client's fixed uuid. -/
def msgC10 : InMsg :=
  { type := "response", request_id := "client-uuid", result := "subscribed" }

theorem control_frames_reuse_client_id_witness :
    sampleConnected.id ∉ sampleConnected.pending ∧
    msgC10.request_id = sampleConnected.id ∧
    msgC10.type ≠ "pong" ∧ msgC10.type ≠ "table_delta" ∧
    msgC10.type ≠ "action_trace" ∧ ("r10" : String) ≠ sampleConnected.id ∧
    ((∀ f ∈ sentFrames
        (subscribeTable sampleConnected "eosio.token" "" "accounts" 3).2,
        f.request_id = sampleConnected.id) ∧
      handleMessage noThrow sampleConnected msgC10 = (sampleConnected, [])) :=
  ⟨by decide, by decide, by decide, by decide, by decide, by decide,
    (control_frames_reuse_client_id sampleConnected "eosio.token" ""
        "accounts" "a::b" "a" "b" 3 noThrow msgC10 "r10" "get_info" none
        (by decide) (by decide) (by decide) (by decide) (by decide)
        (by decide)).1,
    (control_frames_reuse_client_id sampleConnected "eosio.token" ""
        "accounts" "a::b" "a" "b" 3 noThrow msgC10 "r10" "get_info" none
        (by decide) (by decide) (by decide) (by decide) (by decide)
        (by decide)).2.2.2.2.2.2.2.2.2⟩

end WaxWsRpc
